import Mathlib

/-!
Shallow embedding of the consus comment store (src/db.go, current revision):
the `Commentv1` record, the per-file visible-comment counting loop of
`getCommentCountPerItem`, the visible filter of `renderItem`, the
`commentSubmit` and `commentDelete` handlers, and the `migrateComments`
startup pass.

Modelling conventions:
- `time.Time` values are nanoseconds since the epoch, as `Int`; `time.Since(t)`
  is `now - t`; `5 * time.Minute` is `300000000000` ns.
- The outcome of `os.ReadFile` + `json.Unmarshal` on a thread file is a
  `LoadResult`: the file may be absent (`os.IsNotExist`), the read may fail
  with another I/O error, the bytes may fail to decode, or a comment list is
  loaded.
- Randomly generated comment ids (`newCommentID`) are passed in as parameters
  (a single id for one submission, an indexed supply `Nat → String` for
  migration); `newCommentID` always returns 16 hex characters, so the supply
  is assumed to produce non-empty strings where that matters.
- The `uint16` counter of `getCommentCountPerItem` is a `Nat` reduced
  `% 2^16` at each increment, matching Go wrap-around.
- Handler results are `Except DbError (List Commentv1)`: `.ok` carries the
  thread as persisted; an `.error` leaves the stored thread unchanged.
-/

namespace Consus

/-- The `Commentv1` record of db.go: id, author email, body text, creation
time (ns since epoch), soft-delete flag. -/
structure Commentv1 where
  ID : String
  User : String
  Content : String
  When : Int
  Deleted : Bool
deriving DecidableEq, Repr

/-- `5 * time.Minute` in nanoseconds: the delete grace period. -/
def gracePeriodNs : Int := 300000000000

/-- Outcome of reading and decoding one thread file. -/
inductive LoadResult where
  | absent
  | readFailure
  | decodeFailure
  | loaded (comments : List Commentv1)
deriving DecidableEq, Repr

/-- The error taxonomy of the handlers: 401, 400, 404, 403, 500. -/
inductive DbError where
  | unauthorized
  | badRequest
  | notFound
  | forbidden
  | storageFault
deriving DecidableEq, Repr

/-- `emailFromRequest`: missing session cookie, or a token absent from the
sessions map, yields the empty string (Go map zero value). -/
def emailFromRequest (cookie : Option String) (sessions : String → Option String) : String :=
  match cookie with
  | none => ""
  | some tok => (sessions tok).getD ""

/-- The visible-comment filter of `renderItem` (db.go lines 462-467). -/
def listVisible (cs : List Commentv1) : List Commentv1 :=
  cs.filter (fun c => !c.Deleted)

/-- The per-file counting loop of `getCommentCountPerItem` (db.go lines
411-416): a `uint16` counter incremented for each non-deleted comment. -/
def countVisible (cs : List Commentv1) : Nat :=
  cs.foldl (fun count c => if !c.Deleted then (count + 1) % 65536 else count) 0

/-- The comment-loading part of `renderItem`: an absent file renders an empty
thread; other read errors and decode errors are 500s; otherwise the deleted
comments are filtered out. -/
def renderItemComments (load : LoadResult) : Except DbError (List Commentv1) :=
  match load with
  | .absent => .ok []
  | .readFailure => .error .storageFault
  | .decodeFailure => .error .storageFault
  | .loaded cs => .ok (listVisible cs)

/-- `commentSubmit` (db.go lines 491-552): reject anonymous callers, treat an
absent file as an empty thread, surface other read/decode errors as 500,
prepend the freshly built comment, persist (a failed write is a 500). -/
def commentSubmit (email content newID : String) (now : Int) (load : LoadResult)
    (writeOk : Bool) : Except DbError (List Commentv1) :=
  if email = "" then .error .unauthorized
  else
    match load with
    | .readFailure => .error .storageFault
    | .decodeFailure => .error .storageFault
    | .absent =>
        if writeOk then .ok [⟨newID, email, content, now, false⟩]
        else .error .storageFault
    | .loaded cs =>
        if writeOk then .ok (⟨newID, email, content, now, false⟩ :: cs)
        else .error .storageFault

/-- The thread file as stored after a `commentSubmit` call: updated on
success, untouched on any error. -/
def commentSubmitState (email content newID : String) (now : Int) (load : LoadResult)
    (writeOk : Bool) : LoadResult :=
  match commentSubmit email content newID now load writeOk with
  | .ok cs => .loaded cs
  | .error _ => load

/-- The scan loop of `commentDelete` (db.go lines 585-605): first id match
wins; wrong author is 403, an expired window is 403, otherwise the match has
its `Deleted` flag set and the loop breaks; no match at all is 404. -/
def deleteScan (commentID email : String) (now : Int) :
    List Commentv1 → Except DbError (List Commentv1)
  | [] => .error .notFound
  | c :: cs =>
    if c.ID = commentID then
      if c.User ≠ email then .error .forbidden
      else if gracePeriodNs ≤ now - c.When then .error .forbidden
      else .ok (⟨c.ID, c.User, c.Content, c.When, true⟩ :: cs)
    else
      match deleteScan commentID email now cs with
      | .ok cs' => .ok (c :: cs')
      | .error e => .error e

/-- `commentDelete` (db.go lines 554-620): reject anonymous callers (401),
then a missing id (400); any `os.ReadFile` error — absence included — is
reported as 404 "comment file not found"; an undecodable file is a 500; then
the scan runs and a successful mutation is persisted (failed write: 500). -/
def commentDelete (email commentID : String) (now : Int) (load : LoadResult)
    (writeOk : Bool) : Except DbError (List Commentv1) :=
  if email = "" then .error .unauthorized
  else if commentID = "" then .error .badRequest
  else
    match load with
    | .absent => .error .notFound
    | .readFailure => .error .notFound
    | .decodeFailure => .error .storageFault
    | .loaded cs =>
      match deleteScan commentID email now cs with
      | .error e => .error e
      | .ok cs' => if writeOk then .ok cs' else .error .storageFault

/-- The thread file as stored after a `commentDelete` call: updated on
success, untouched on any error. -/
def commentDeleteState (email commentID : String) (now : Int) (load : LoadResult)
    (writeOk : Bool) : LoadResult :=
  match commentDelete email commentID now load writeOk with
  | .ok cs => .loaded cs
  | .error _ => load

/-- The per-thread loop of `migrateComments` (db.go lines 651-657): each
comment with an empty id receives the next freshly generated id; the returned
flag is the `modified` variable; the returned index is the next unused
position of the id supply. -/
def migrateThread (ids : Nat → String) (k : Nat) :
    List Commentv1 → List Commentv1 × Bool × Nat
  | [] => ([], false, k)
  | c :: cs =>
    if c.ID = "" then
      let r := migrateThread ids (k + 1) cs
      (⟨ids k, c.User, c.Content, c.When, c.Deleted⟩ :: r.1, true, r.2.2)
    else
      let r := migrateThread ids k cs
      (c :: r.1, r.2.1, r.2.2)

/-- One thread file under `migrateComments`: an undecodable file (`none`) is
skipped with a warning and never rewritten; a decodable one runs the id
backfill, and is rewritten exactly when the `modified` flag is set. -/
def migrateEntry (ids : Nat → String) (k : Nat) :
    Option (List Commentv1) → Option (List Commentv1) × Bool × Nat
  | none => (none, false, k)
  | some cs =>
    let r := migrateThread ids k cs
    (some r.1, r.2.1, r.2.2)

/-- `migrateComments` over a whole store (the `filepath.WalkDir` traversal):
every thread file in order, threading the id supply; each result pairs the
entry's new contents with whether that file was rewritten. -/
def migrateStore (ids : Nat → String) :
    Nat → List (Option (List Commentv1)) → List (Option (List Commentv1) × Bool) × Nat
  | k, [] => ([], k)
  | k, e :: es =>
    let r := migrateEntry ids k e
    let rest := migrateStore ids r.2.2 es
    ((r.1, r.2.1) :: rest.1, rest.2)

/-! ### Counting lemmas -/

/-- The uint16 counting fold, started from any in-range accumulator, computes
the visible length modulo 2^16. -/
lemma countVisible_go (cs : List Commentv1) :
    ∀ a : Nat, a < 65536 →
      List.foldl (fun count c => if !c.Deleted then (count + 1) % 65536 else count) a cs
        = (a + (listVisible cs).length) % 65536 := by
  induction cs with
  | nil =>
    intro a ha
    simp [listVisible, Nat.mod_eq_of_lt ha]
  | cons c t ih =>
    intro a ha
    rw [List.foldl_cons]
    by_cases hc : c.Deleted = true
    · rw [if_neg (by simp [hc]), ih a ha]
      have hv : listVisible (c :: t) = listVisible t := by
        simp [listVisible, List.filter_cons, hc]
      rw [hv]
    · have h1 : (a + 1) % 65536 < 65536 := Nat.mod_lt _ (by norm_num)
      rw [if_pos (by simp [hc]), ih _ h1, Nat.mod_add_mod]
      have hv : listVisible (c :: t) = c :: listVisible t := by
        simp [listVisible, List.filter_cons, hc]
      rw [hv, List.length_cons]
      ring_nf

/-- `countVisible` is the visible length reduced modulo 2^16. -/
lemma countVisible_eq_mod (cs : List Commentv1) :
    countVisible cs = (listVisible cs).length % 65536 := by
  have h := countVisible_go cs 0 (by norm_num)
  unfold countVisible
  rw [h, Nat.zero_add]

/-- Filtering a replicate of a visible comment keeps every copy. -/
lemma listVisible_replicate (n : Nat) (c : Commentv1) (h : c.Deleted = false) :
    listVisible (List.replicate n c) = List.replicate n c := by
  induction n with
  | zero => rfl
  | succ n ih =>
    have hv : listVisible (c :: List.replicate n c) = c :: listVisible (List.replicate n c) := by
      simp [listVisible, List.filter_cons, h]
    rw [List.replicate_succ, hv, ih]

/-- C2 counterexample: a thread of 65536 visible comments is counted as 0 by
the uint16 counter of `getCommentCountPerItem`, while `listVisible` returns
all 65536 of them — the count does not equal the visible length. -/
theorem C2_counterexample :
    countVisible (List.replicate 65536 (⟨"i", "u", "x", 0, false⟩ : Commentv1)) = 0 ∧
    (listVisible (List.replicate 65536 (⟨"i", "u", "x", 0, false⟩ : Commentv1))).length
      = 65536 := by
  have hv := listVisible_replicate 65536 (⟨"i", "u", "x", 0, false⟩ : Commentv1) rfl
  constructor
  · rw [countVisible_eq_mod, hv, List.length_replicate]
  · rw [hv, List.length_replicate]

/-- C2 (amended): `listVisible` never returns a deleted comment, and
`countVisible` equals the length of `listVisible`'s result reduced modulo
2^16 (they agree exactly only below 65536 visible comments). -/
theorem C2_visible_count (cs : List Commentv1) :
    (∀ c ∈ listVisible cs, c.Deleted = false) ∧
    countVisible cs = (listVisible cs).length % 65536 := by
  constructor
  · intro c hc
    have := List.of_mem_filter hc
    simpa using this
  · exact countVisible_eq_mod cs

/-- C2 witness: the amended statement evaluated on a concrete two-comment
thread (one visible, one deleted). -/
theorem C2_witness :
    countVisible [(⟨"i", "u", "x", 0, false⟩ : Commentv1), ⟨"j", "u", "y", 0, true⟩]
      = (listVisible [(⟨"i", "u", "x", 0, false⟩ : Commentv1),
          ⟨"j", "u", "y", 0, true⟩]).length % 65536 ∧
    (⟨"i", "u", "x", 0, false⟩ : Commentv1).Deleted = false :=
  ⟨(C2_visible_count _).2,
   (C2_visible_count [(⟨"i", "u", "x", 0, false⟩ : Commentv1), ⟨"j", "u", "y", 0, true⟩]).1
     _ (by simp [listVisible, List.filter_cons])⟩

/-- C10: the per-thread count reported by `getCommentCountPerItem` is the
number of non-deleted comments reduced modulo 2^16, and a thread with exactly
65536 visible comments is reported as 0. -/
theorem C10_uint16_count :
    (∀ cs : List Commentv1, countVisible cs = (listVisible cs).length % 65536) ∧
    countVisible (List.replicate 65536 (⟨"k", "v", "z", 0, false⟩ : Commentv1)) = 0 := by
  refine ⟨countVisible_eq_mod, ?_⟩
  rw [countVisible_eq_mod,
    listVisible_replicate 65536 (⟨"k", "v", "z", 0, false⟩ : Commentv1) rfl,
    List.length_replicate]

/-! ### Delete-scan lemmas -/

/-- For an authenticated caller with a non-empty id, `commentDelete` on a
loaded thread is the scan followed by the write. -/
lemma commentDelete_loaded (email commentID : String) (now : Int) (cs : List Commentv1)
    (writeOk : Bool) (he : email ≠ "") (hid : commentID ≠ "") :
    commentDelete email commentID now (.loaded cs) writeOk =
      match deleteScan commentID email now cs with
      | .error e => .error e
      | .ok cs' => if writeOk then .ok cs' else .error .storageFault := by
  rw [commentDelete, if_neg he, if_neg hid]

/-- The scan stops at the first comment whose id matches: everything before
it is kept, and the outcome is decided by that comment's author and age
alone (its deleted flag is never consulted). -/
lemma deleteScan_first_match (commentID email : String) (now : Int)
    (l₁ : List Commentv1) (c : Commentv1) (l₂ : List Commentv1)
    (hc : c.ID = commentID) :
    (∀ x ∈ l₁, x.ID ≠ commentID) →
    deleteScan commentID email now (l₁ ++ c :: l₂) =
      if c.User ≠ email then .error .forbidden
      else if gracePeriodNs ≤ now - c.When then .error .forbidden
      else .ok (l₁ ++ ⟨c.ID, c.User, c.Content, c.When, true⟩ :: l₂) := by
  induction l₁ with
  | nil =>
    intro _
    simp only [List.nil_append, deleteScan, hc, if_pos]
  | cons x t ih =>
    intro h₁
    have hx : ¬ x.ID = commentID := h₁ x (List.mem_cons_self x t)
    rw [List.cons_append]
    simp only [deleteScan]
    rw [if_neg hx, ih (fun y hy => h₁ y (List.mem_cons_of_mem x hy))]
    by_cases hu : c.User = email
    · by_cases hg : gracePeriodNs ≤ now - c.When
      · simp [hu, hg]
      · simp [hu, hg]
    · simp [hu]

/-- C1 counterexample: a repeat delete on an already-deleted comment, by its
author within the grace window, returns success again — not NotFound: the
scan never consults the `Deleted` flag. -/
theorem C1_counterexample :
    commentDelete "u" "a" 0 (.loaded [⟨"a", "u", "x", 0, true⟩]) true
      = .ok [⟨"a", "u", "x", 0, true⟩] ∧
    commentDelete "u" "a" 0 (.loaded [⟨"a", "u", "x", 0, true⟩]) true
      ≠ .error .notFound := by
  constructor
  · rfl
  · intro h
    rw [show commentDelete "u" "a" 0 (.loaded [⟨"a", "u", "x", 0, true⟩]) true
        = .ok [⟨"a", "u", "x", 0, true⟩] from rfl] at h
    exact Except.noConfusion h

/-- C1 (amended): `commentDelete` does not consult the deleted flag, so a
repeat delete on an already-deleted id is handled like any other delete — a
non-author gets Forbidden, the author outside the grace window gets
Forbidden, and the author within the window gets success again (the flag
simply stays true); NotFound is never the answer while the id is present. -/
theorem C1_repeat_delete (email commentID : String) (now : Int)
    (l₁ l₂ : List Commentv1) (c : Commentv1)
    (he : email ≠ "") (hid : commentID ≠ "")
    (h₁ : ∀ x ∈ l₁, x.ID ≠ commentID) (hc : c.ID = commentID)
    (_hdel : c.Deleted = true) :
    (c.User ≠ email →
      commentDelete email commentID now (.loaded (l₁ ++ c :: l₂)) true
        = .error .forbidden) ∧
    (c.User = email → gracePeriodNs ≤ now - c.When →
      commentDelete email commentID now (.loaded (l₁ ++ c :: l₂)) true
        = .error .forbidden) ∧
    (c.User = email → now - c.When < gracePeriodNs →
      commentDelete email commentID now (.loaded (l₁ ++ c :: l₂)) true
        = .ok (l₁ ++ ⟨c.ID, c.User, c.Content, c.When, true⟩ :: l₂)) := by
  rw [commentDelete_loaded email commentID now _ true he hid,
    deleteScan_first_match commentID email now l₁ c l₂ hc h₁]
  refine ⟨fun hu => ?_, fun hu hg => ?_, fun hu hg => ?_⟩
  · rw [if_pos hu]
  · rw [if_neg (fun h => h hu), if_pos hg]
  · rw [if_neg (fun h => h hu), if_neg (not_le.mpr hg)]
    rfl

/-- C1 witness: the amended statement evaluated on a concrete thread whose
second comment is already deleted; the author deletes it again at time 1ns
and gets success. -/
theorem C1_witness :
    commentDelete "v" "b" 1
        (.loaded [⟨"a", "v", "x", 0, false⟩, ⟨"b", "v", "y", 0, true⟩]) true
      = .ok [⟨"a", "v", "x", 0, false⟩, ⟨"b", "v", "y", 0, true⟩] := by
  have h := (C1_repeat_delete "v" "b" 1 [⟨"a", "v", "x", 0, false⟩] []
      ⟨"b", "v", "y", 0, true⟩ (by decide) (by decide)
      (by intro x hx; simp at hx; rw [hx]; decide) rfl rfl).2.2 rfl (by decide)
  simpa using h

/-- C3: within the grace window (strictly less than 5 minutes after
creation) the author's delete succeeds, sets the flag and persists; from 5
minutes on it fails with Forbidden even for the author. -/
theorem C3_grace_window (email commentID : String) (now : Int)
    (l₁ l₂ : List Commentv1) (c : Commentv1)
    (he : email ≠ "") (hid : commentID ≠ "")
    (h₁ : ∀ x ∈ l₁, x.ID ≠ commentID) (hc : c.ID = commentID)
    (hauthor : c.User = email) :
    (now - c.When < gracePeriodNs →
      commentDelete email commentID now (.loaded (l₁ ++ c :: l₂)) true
          = .ok (l₁ ++ ⟨c.ID, c.User, c.Content, c.When, true⟩ :: l₂) ∧
      commentDeleteState email commentID now (.loaded (l₁ ++ c :: l₂)) true
          = .loaded (l₁ ++ ⟨c.ID, c.User, c.Content, c.When, true⟩ :: l₂)) ∧
    (gracePeriodNs ≤ now - c.When →
      commentDelete email commentID now (.loaded (l₁ ++ c :: l₂)) true
        = .error .forbidden) := by
  have hbase := commentDelete_loaded email commentID now (l₁ ++ c :: l₂) true he hid
  rw [deleteScan_first_match commentID email now l₁ c l₂ hc h₁] at hbase
  constructor
  · intro hg
    have hok : commentDelete email commentID now (.loaded (l₁ ++ c :: l₂)) true
        = .ok (l₁ ++ ⟨c.ID, c.User, c.Content, c.When, true⟩ :: l₂) := by
      rw [hbase, if_neg (fun h => h hauthor), if_neg (not_le.mpr hg)]
      rfl
    exact ⟨hok, by rw [commentDeleteState, hok]⟩
  · intro hg
    rw [hbase, if_neg (fun h => h hauthor), if_pos hg]

/-- C3 witness: a delete at 5min − 1ns succeeds and persists; a delete at
exactly 5min is Forbidden, on a concrete one-comment thread. -/
theorem C3_witness :
    commentDelete "a@x" "c1" 299999999999 (.loaded [⟨"c1", "a@x", "hello", 0, false⟩]) true
        = .ok [⟨"c1", "a@x", "hello", 0, true⟩] ∧
    commentDelete "a@x" "c1" 300000000000 (.loaded [⟨"c1", "a@x", "hello", 0, false⟩]) true
        = .error .forbidden := by
  constructor
  · have h := ((C3_grace_window "a@x" "c1" 299999999999 [] [] ⟨"c1", "a@x", "hello", 0, false⟩
      (by decide) (by decide) (by intro x hx; simp at hx) rfl rfl).1 (by decide)).1
    simpa using h
  · exact (C3_grace_window "a@x" "c1" 300000000000 [] [] ⟨"c1", "a@x", "hello", 0, false⟩
      (by decide) (by decide) (by intro x hx; simp at hx) rfl rfl).2 (by decide)

/-- C5: a delete request by anyone other than the comment's author is
Forbidden, whatever the current time. -/
theorem C5_author_forbidden (email commentID : String) (now : Int)
    (l₁ l₂ : List Commentv1) (c : Commentv1)
    (he : email ≠ "") (hid : commentID ≠ "")
    (h₁ : ∀ x ∈ l₁, x.ID ≠ commentID) (hc : c.ID = commentID)
    (hother : c.User ≠ email) :
    commentDelete email commentID now (.loaded (l₁ ++ c :: l₂)) true
      = .error .forbidden := by
  rw [commentDelete_loaded email commentID now _ true he hid,
    deleteScan_first_match commentID email now l₁ c l₂ hc h₁, if_pos hother]

/-- C5 witness: identity "b@x" cannot delete "a@x"'s fresh comment (age 0),
nor its ancient one (large now). -/
theorem C5_witness :
    commentDelete "b@x" "c1" 0 (.loaded [⟨"c1", "a@x", "hello", 0, false⟩]) true
        = .error .forbidden ∧
    commentDelete "b@x" "c1" 999999999999999 (.loaded [⟨"c1", "a@x", "hello", 0, false⟩]) true
        = .error .forbidden := by
  constructor
  · exact C5_author_forbidden "b@x" "c1" 0 [] [] ⟨"c1", "a@x", "hello", 0, false⟩
      (by decide) (by decide) (by intro x hx; simp at hx) rfl (by decide)
  · exact C5_author_forbidden "b@x" "c1" 999999999999999 [] [] ⟨"c1", "a@x", "hello", 0, false⟩
      (by decide) (by decide) (by intro x hx; simp at hx) rfl (by decide)

/-! ### Append, error propagation, authorization -/

/-- C4: `commentSubmit` treats an absent thread file exactly as an empty
thread, and on any loaded thread produces the freshly built comment — given
id, resolved author, literal body, current time, not deleted — prepended
before the previous sequence, so the visible listing starts with it
(newest-first). -/
theorem C4_append_prepend (email content newID : String) (now : Int)
    (he : email ≠ "") :
    (commentSubmit email content newID now .absent true
        = commentSubmit email content newID now (.loaded []) true) ∧
    (∀ cs, commentSubmit email content newID now (.loaded cs) true
        = .ok (⟨newID, email, content, now, false⟩ :: cs)) ∧
    (∀ cs, listVisible (⟨newID, email, content, now, false⟩ :: cs)
        = ⟨newID, email, content, now, false⟩ :: listVisible cs) := by
  refine ⟨?_, fun cs => ?_, fun cs => ?_⟩
  · simp [commentSubmit, he]
  · simp [commentSubmit, he]
  · simp [listVisible, List.filter_cons]

/-- C4 witness: appending "nice" by "b@x" over the one-comment thread of
"a@x" yields the two-comment thread, newest first; the absent-thread case
agrees with the empty-thread case. -/
theorem C4_witness :
    commentSubmit "b@x" "nice" "c2" 7 (.loaded [⟨"c1", "a@x", "hello", 0, false⟩]) true
        = .ok [⟨"c2", "b@x", "nice", 7, false⟩, ⟨"c1", "a@x", "hello", 0, false⟩] ∧
    commentSubmit "b@x" "nice" "c2" 7 .absent true
        = commentSubmit "b@x" "nice" "c2" 7 (.loaded []) true :=
  ⟨(C4_append_prepend "b@x" "nice" "c2" 7 (by decide)).2.1 [⟨"c1", "a@x", "hello", 0, false⟩],
   (C4_append_prepend "b@x" "nice" "c2" 7 (by decide)).1⟩

/-- C6 counterexample: a read failure that is not file-absence, during a
delete, is reported as NotFound — the StorageIO signal is collapsed. -/
theorem C6_counterexample :
    commentDelete "u" "a" 0 .readFailure true = .error .notFound ∧
    commentDelete "u" "a" 0 .readFailure true ≠ .error .storageFault := by
  constructor
  · rfl
  · intro h
    rw [show commentDelete "u" "a" 0 .readFailure true = .error .notFound from rfl] at h
    simp at h

/-- C6 (amended): StorageIO failures are surfaced as a distinct signal for
append (read, decode, write) and view (read, decode), and for delete's
decode and write steps; but a failed read during delete is collapsed into
NotFound — `commentDelete` reports any `os.ReadFile` error as 404. -/
theorem C6_storage_errors (email commentID content newID : String) (now : Int)
    (he : email ≠ "") (hid : commentID ≠ "") :
    (commentSubmit email content newID now .readFailure true = .error .storageFault) ∧
    (commentSubmit email content newID now .decodeFailure true = .error .storageFault) ∧
    (∀ cs, commentSubmit email content newID now (.loaded cs) false = .error .storageFault) ∧
    (renderItemComments .readFailure = .error .storageFault) ∧
    (renderItemComments .decodeFailure = .error .storageFault) ∧
    (commentDelete email commentID now .decodeFailure true = .error .storageFault) ∧
    (∀ cs cs', deleteScan commentID email now cs = .ok cs' →
        commentDelete email commentID now (.loaded cs) false = .error .storageFault) ∧
    (commentDelete email commentID now .readFailure true = .error .notFound) := by
  refine ⟨?_, ?_, fun cs => ?_, rfl, rfl, ?_, fun cs cs' hscan => ?_, ?_⟩
  · simp [commentSubmit, he]
  · simp [commentSubmit, he]
  · simp [commentSubmit, he]
  · simp [commentDelete, he, hid]
  · rw [commentDelete_loaded email commentID now cs false he hid, hscan]
    rfl
  · simp [commentDelete, he, hid]

/-- C6 witness: the amended statement evaluated for caller "u", id "a": a
submit read failure is a 500, and a delete read failure is a 404. -/
theorem C6_witness :
    commentSubmit "u" "x" "c9" 0 .readFailure true = .error .storageFault ∧
    commentDelete "u" "a" 0 .readFailure true = .error .notFound :=
  ⟨(C6_storage_errors "u" "a" "x" "c9" 0 (by decide) (by decide)).1,
   (C6_storage_errors "u" "a" "x" "c9" 0 (by decide) (by decide)).2.2.2.2.2.2.2⟩

/-- C9: a request whose session cookie is missing, or whose token is not in
the sessions map, resolves to the empty identity; both mutating handlers
then answer Unauthorized and leave the stored thread untouched, whatever the
store contains. -/
theorem C9_auth_required (cookie : Option String) (sessions : String → Option String)
    (hanon : emailFromRequest cookie sessions = "")
    (content newID commentID : String) (now : Int) (load : LoadResult) (writeOk : Bool) :
    commentSubmit (emailFromRequest cookie sessions) content newID now load writeOk
        = .error .unauthorized ∧
    commentSubmitState (emailFromRequest cookie sessions) content newID now load writeOk
        = load ∧
    commentDelete (emailFromRequest cookie sessions) commentID now load writeOk
        = .error .unauthorized ∧
    commentDeleteState (emailFromRequest cookie sessions) commentID now load writeOk
        = load := by
  rw [hanon]
  have hs : commentSubmit "" content newID now load writeOk = .error .unauthorized := by
    rw [commentSubmit.eq_def, if_pos rfl]
  have hd : commentDelete "" commentID now load writeOk = .error .unauthorized := by
    rw [commentDelete.eq_def, if_pos rfl]
  exact ⟨hs, by rw [commentSubmitState, hs], hd, by rw [commentDeleteState, hd]⟩

/-- C9 witness: a token absent from the sessions map is rejected with
Unauthorized and the loaded one-comment thread is left as it was. -/
theorem C9_witness :
    commentSubmit (emailFromRequest (some "tok") (fun _ => none)) "hi" "c3" 0
        (.loaded [⟨"c1", "a@x", "hello", 0, false⟩]) true = .error .unauthorized ∧
    commentDeleteState (emailFromRequest (some "tok") (fun _ => none)) "c1" 0
        (.loaded [⟨"c1", "a@x", "hello", 0, false⟩]) true
      = .loaded [⟨"c1", "a@x", "hello", 0, false⟩] :=
  ⟨(C9_auth_required (some "tok") (fun _ => none) rfl "hi" "c3" "c1" 0
      (.loaded [⟨"c1", "a@x", "hello", 0, false⟩]) true).1,
   (C9_auth_required (some "tok") (fun _ => none) rfl "hi" "c3" "c1" 0
      (.loaded [⟨"c1", "a@x", "hello", 0, false⟩]) true).2.2.2⟩

/-! ### Migration lemmas -/

/-- After one backfill pass with a never-empty id supply, every comment id
in the thread is non-empty. -/
lemma migrateThread_nonempty (ids : Nat → String) (h : ∀ n, ids n ≠ "") :
    ∀ (cs : List Commentv1) (k : Nat), ∀ c ∈ (migrateThread ids k cs).1, c.ID ≠ "" := by
  intro cs
  induction cs with
  | nil => intro k c hc; simp [migrateThread] at hc
  | cons c t ih =>
    intro k x hx
    by_cases hc : c.ID = ""
    · simp only [migrateThread, if_pos hc] at hx
      rcases List.mem_cons.mp hx with hx | hx
      · rw [hx]
        simpa using h k
      · exact ih (k + 1) x hx
    · simp only [migrateThread, if_neg hc] at hx
      rcases List.mem_cons.mp hx with hx | hx
      · rw [hx]
        simpa using hc
      · exact ih k x hx

/-- A thread with no empty id is left untouched, unmodified, and consumes no
fresh ids. -/
lemma migrateThread_fixpoint (ids : Nat → String) :
    ∀ (cs : List Commentv1) (k : Nat), (∀ c ∈ cs, c.ID ≠ "") →
      migrateThread ids k cs = (cs, false, k) := by
  intro cs
  induction cs with
  | nil => intro k _; rfl
  | cons c t ih =>
    intro k h
    have hc : ¬ c.ID = "" := h c (List.mem_cons_self c t)
    have ht := ih k (fun x hx => h x (List.mem_cons_of_mem c hx))
    simp only [migrateThread, if_neg hc, ht]

/-- The `modified` flag is set exactly when some comment had an empty id. -/
lemma migrateThread_modified_iff (ids : Nat → String) :
    ∀ (cs : List Commentv1) (k : Nat),
      (migrateThread ids k cs).2.1 = true ↔ ∃ c ∈ cs, c.ID = "" := by
  intro cs
  induction cs with
  | nil => intro k; simp [migrateThread]
  | cons c t ih =>
    intro k
    by_cases hc : c.ID = ""
    · have hmem : ∃ x ∈ c :: t, x.ID = "" := ⟨c, List.mem_cons_self c t, hc⟩
      simp only [migrateThread, if_pos hc]
      simpa using hmem
    · simp only [migrateThread, if_neg hc]
      rw [ih k]
      constructor
      · rintro ⟨x, hx, hxid⟩
        exact ⟨x, List.mem_cons_of_mem c hx, hxid⟩
      · rintro ⟨x, hx, hxid⟩
        rcases List.mem_cons.mp hx with hx | hx
        · exact absurd (hx ▸ hxid) hc
        · exact ⟨x, hx, hxid⟩

/-- Entry version of `migrateThread_nonempty`: an undecodable entry stays
undecodable; a decodable one ends with only non-empty ids. -/
lemma migrateEntry_nonempty (ids : Nat → String) (h : ∀ n, ids n ≠ "") (k : Nat)
    (e : Option (List Commentv1)) :
    ∀ cs, (migrateEntry ids k e).1 = some cs → ∀ c ∈ cs, c.ID ≠ "" := by
  cases e with
  | none => intro cs hcs; exact Option.noConfusion hcs
  | some l =>
    intro cs hcs c hc
    have hl : (migrateThread ids k l).1 = cs := Option.some.inj hcs
    exact migrateThread_nonempty ids h l k c (hl ▸ hc)

/-- An entry whose comments all carry ids already is returned unchanged and
unrewritten. -/
lemma migrateEntry_fixpoint (ids : Nat → String) (k : Nat) (e : Option (List Commentv1))
    (h : ∀ cs, e = some cs → ∀ c ∈ cs, c.ID ≠ "") :
    migrateEntry ids k e = (e, false, k) := by
  cases e with
  | none => rfl
  | some l =>
    have hl := migrateThread_fixpoint ids l k (h l rfl)
    simp [migrateEntry, hl]

/-- An entry is rewritten only if it was decodable and some comment in it
had an empty id. -/
lemma migrateEntry_modified (ids : Nat → String) (k : Nat) (e : Option (List Commentv1)) :
    (migrateEntry ids k e).2.1 = true → ∃ cs, e = some cs ∧ ∃ c ∈ cs, c.ID = "" := by
  cases e with
  | none => intro hfalse; exact Bool.noConfusion hfalse
  | some l =>
    intro hmod
    exact ⟨l, rfl, (migrateThread_modified_iff ids l k).mp (by simpa [migrateEntry] using hmod)⟩

/-- Store version of `migrateThread_nonempty`. -/
lemma migrateStore_nonempty (ids : Nat → String) (h : ∀ n, ids n ≠ "") :
    ∀ (es : List (Option (List Commentv1))) (k : Nat),
      ∀ p ∈ (migrateStore ids k es).1, ∀ cs, p.1 = some cs → ∀ c ∈ cs, c.ID ≠ "" := by
  intro es
  induction es with
  | nil => intro k p hp; simp [migrateStore] at hp
  | cons e t ih =>
    intro k p hp
    simp only [migrateStore] at hp
    rcases List.mem_cons.mp hp with hp | hp
    · intro cs hcs
      rw [hp] at hcs
      exact migrateEntry_nonempty ids h k e cs hcs
    · exact ih _ p hp

/-- A store whose decodable entries all carry non-empty ids is mapped to
itself with every rewrite flag false and no fresh id consumed. -/
lemma migrateStore_fixpoint (ids : Nat → String) :
    ∀ (es : List (Option (List Commentv1))) (k : Nat),
      (∀ e ∈ es, ∀ cs, e = some cs → ∀ c ∈ cs, c.ID ≠ "") →
      migrateStore ids k es = (es.map (fun e => (e, false)), k) := by
  intro es
  induction es with
  | nil => intro k _; rfl
  | cons e t ih =>
    intro k h
    have he := migrateEntry_fixpoint ids k e (h e (List.mem_cons_self e t))
    have ht := ih k (fun x hx => h x (List.mem_cons_of_mem e hx))
    simp only [migrateStore, he, ht, List.map_cons]

/-- C7: with a fresh-id supply that never yields the empty string (as
`newCommentID`'s 16 hex characters), one migration run leaves every
decodable thread with only non-empty comment ids; a second run in
succession — under any id supply, from any counter — rewrites no entry and
changes nothing; and in any run an entry is rewritten only if it was
decodable and at least one id was assigned to it. -/
theorem C7_migration_idempotent (ids ids₂ : Nat → String)
    (es : List (Option (List Commentv1))) (h : ∀ n, ids n ≠ "") :
    (∀ p ∈ (migrateStore ids 0 es).1, ∀ cs, p.1 = some cs → ∀ c ∈ cs, c.ID ≠ "") ∧
    (∀ k, migrateStore ids₂ k ((migrateStore ids 0 es).1.map Prod.fst)
        = (((migrateStore ids 0 es).1.map Prod.fst).map (fun e => (e, false)), k)) ∧
    (∀ k e, (migrateEntry ids k e).2.1 = true →
        ∃ cs, e = some cs ∧ ∃ c ∈ cs, c.ID = "") := by
  have h1 := migrateStore_nonempty ids h es 0
  refine ⟨h1, fun k => ?_, fun k e => migrateEntry_modified ids k e⟩
  apply migrateStore_fixpoint
  intro x hx cs hcs
  rcases List.mem_map.mp hx with ⟨p, hp, hpx⟩
  exact h1 p hp cs (hpx ▸ hcs)

/-- C7 witness: a three-entry store (one legacy comment without id, one
undecodable file, one already-migrated thread); after the first run, a
second run is the identity with no rewrites. -/
theorem C7_witness :
    migrateStore (fun _ => "y") 0
        ((migrateStore (fun _ => "x") 0
            [some [⟨"", "u", "b", 0, false⟩], none, some [⟨"a", "v", "c", 1, true⟩]]).1.map
          Prod.fst)
      = (((migrateStore (fun _ => "x") 0
            [some [⟨"", "u", "b", 0, false⟩], none, some [⟨"a", "v", "c", 1, true⟩]]).1.map
          Prod.fst).map (fun e => (e, false)), 0) := by
  have hx : ∀ n : Nat, (fun _ : Nat => "x") n ≠ "" := by
    intro n
    show "x" ≠ ""
    decide
  exact (C7_migration_idempotent (fun _ => "x") (fun _ => "y")
    [some [⟨"", "u", "b", 0, false⟩], none, some [⟨"a", "v", "c", 1, true⟩]] hx).2.1 0

/-! ### Deleted-flag monotonicity -/

/-- A successful scan relates input and output pointwise: same length, and a
set deleted flag stays set. -/
lemma deleteScan_ok_pointwise (commentID email : String) (now : Int) :
    ∀ (cs cs' : List Commentv1), deleteScan commentID email now cs = .ok cs' →
      List.Forall₂ (fun c c' => c.Deleted = true → c'.Deleted = true) cs cs' := by
  intro cs
  induction cs with
  | nil => intro cs' h; exact Except.noConfusion h
  | cons c t ih =>
    intro cs' h
    simp only [deleteScan] at h
    by_cases hid : c.ID = commentID
    · rw [if_pos hid] at h
      by_cases hu : c.User ≠ email
      · rw [if_pos hu] at h
        exact Except.noConfusion h
      · rw [if_neg hu] at h
        by_cases hg : gracePeriodNs ≤ now - c.When
        · rw [if_pos hg] at h
          exact Except.noConfusion h
        · rw [if_neg hg] at h
          injection h with h
          rw [← h]
          exact List.Forall₂.cons (fun _ => rfl)
            (List.forall₂_same.mpr (fun x _ hx => hx))
    · rw [if_neg hid] at h
      cases hscan : deleteScan commentID email now t with
      | ok t' =>
        rw [hscan] at h
        injection h with h
        rw [← h]
        exact List.Forall₂.cons (fun hx => hx) (ih t' hscan)
      | error e =>
        rw [hscan] at h
        exact Except.noConfusion h

/-- The id backfill keeps the length and every deleted flag exactly. -/
lemma migrateThread_shape (ids : Nat → String) :
    ∀ (cs : List Commentv1) (k : Nat),
      (migrateThread ids k cs).1.length = cs.length ∧
      List.Forall₂ (fun c c' => c.Deleted = c'.Deleted) cs (migrateThread ids k cs).1 := by
  intro cs
  induction cs with
  | nil => intro k; exact ⟨rfl, List.Forall₂.nil⟩
  | cons c t ih =>
    intro k
    by_cases hc : c.ID = ""
    · have ht := ih (k + 1)
      constructor
      · simp only [migrateThread, if_pos hc, List.length_cons, ht.1]
      · simp only [migrateThread, if_pos hc]
        exact List.Forall₂.cons rfl ht.2
    · have ht := ih k
      constructor
      · simp only [migrateThread, if_neg hc, List.length_cons, ht.1]
      · simp only [migrateThread, if_neg hc]
        exact List.Forall₂.cons rfl ht.2

/-- C8: the deleted flag is monotonic and nothing is ever physically
removed: an append keeps the whole previous thread as the tail; a
successful delete keeps the length and never clears a set flag; migration
keeps the length and every flag exactly. -/
theorem C8_deleted_monotonic :
    (∀ (email content newID : String) (now : Int) (cs l' : List Commentv1),
        commentSubmit email content newID now (.loaded cs) true = .ok l' →
        l'.length = cs.length + 1 ∧ l'.tail = cs) ∧
    (∀ (email commentID : String) (now : Int) (cs l' : List Commentv1),
        commentDelete email commentID now (.loaded cs) true = .ok l' →
        l'.length = cs.length ∧
        List.Forall₂ (fun c c' => c.Deleted = true → c'.Deleted = true) cs l') ∧
    (∀ (ids : Nat → String) (k : Nat) (cs : List Commentv1),
        (migrateThread ids k cs).1.length = cs.length ∧
        List.Forall₂ (fun c c' => c.Deleted = c'.Deleted) cs (migrateThread ids k cs).1) := by
  refine ⟨fun email content newID now cs l' h => ?_,
    fun email commentID now cs l' h => ?_,
    fun ids k cs => migrateThread_shape ids cs k⟩
  · by_cases he : email = ""
    · rw [commentSubmit, if_pos he] at h
      exact Except.noConfusion h
    · rw [commentSubmit, if_neg he] at h
      simp only [if_pos rfl] at h
      injection h with h
      rw [← h]
      exact ⟨rfl, rfl⟩
  · by_cases he : email = ""
    · rw [commentDelete.eq_def, if_pos he] at h
      exact Except.noConfusion h
    · by_cases hid : commentID = ""
      · rw [commentDelete.eq_def, if_neg he, if_pos hid] at h
        exact Except.noConfusion h
      · rw [commentDelete_loaded email commentID now cs true he hid] at h
        cases hscan : deleteScan commentID email now cs with
        | ok cs'' =>
          rw [hscan] at h
          simp only [if_pos rfl] at h
          injection h with h
          have hf := deleteScan_ok_pointwise commentID email now cs cs'' hscan
          rw [h] at hf
          exact ⟨hf.length_eq.symm, hf⟩
        | error e =>
          rw [hscan] at h
          exact Except.noConfusion h

/-- C8 witness: the delete conjunct evaluated on a concrete one-comment
thread deleted by its author at time 0. -/
theorem C8_witness :
    ([⟨"c1", "a@x", "hello", 0, true⟩] : List Commentv1).length
        = ([⟨"c1", "a@x", "hello", 0, false⟩] : List Commentv1).length ∧
    List.Forall₂ (fun c c' : Commentv1 => c.Deleted = true → c'.Deleted = true)
      [(⟨"c1", "a@x", "hello", 0, false⟩ : Commentv1)] [⟨"c1", "a@x", "hello", 0, true⟩] := by
  have h := C8_deleted_monotonic.2.1 "a@x" "c1" 0 [⟨"c1", "a@x", "hello", 0, false⟩]
    [⟨"c1", "a@x", "hello", 0, true⟩] rfl
  exact ⟨h.1.symm ▸ rfl, h.2⟩

end Consus
